import Mathlib

/-!
Verification of the nnabla-nas searcher/runner layer.

Shallow embedding of:
  - nnabla_nas/runner/search.py (Searcher, DartsSeacher, ProxylessNasSearcher)
  - nnabla_nas/runner/searcher/search.py (Searcher.run, Searcher._start_warmup)
  - nnabla_nas/runner/searcher/pnas.py (ProxylessNasSearcher)
  - nnabla_nas/contrib/classification/ofa_xception/modules.py
    (build_activation, genotype2subnetlist)

Numbers handled by the Python runtime are modelled as rationals; regularizer
exponents (the weight field) as integers, so that the power operation is
exact.  Control flow is modelled either as pure functions over the inputs of
a call or as event traces (lists of operations) together with an explicit
state-transition semantics for the operations that touch gradient buffers.
-/

namespace NnablaNas

/-! ## build_activation (ofa_xception/modules.py)

Source:
    def build_activation(act_func, inplace=False):
        if act_func == 'relu': return Mo.ReLU(inplace=inplace)
        elif act_func == 'relu6': return Mo.ReLU6()
        elif act_func == 'h_swish': return Mo.Hswish()
        elif act_func is None or act_func == 'none': return None
        else: raise ValueError(...)
act_func is either None or a string: Option String.  A raised ValueError is
an Except.error.
-/

inductive ActModule where
  | ReLU (inplace : Bool)
  | ReLU6
  | Hswish
deriving DecidableEq

def build_activation (act_func : Option String) (inplace : Bool) :
    Except String (Option ActModule) :=
  if act_func = some "relu" then Except.ok (some (ActModule.ReLU inplace))
  else if act_func = some "relu6" then Except.ok (some ActModule.ReLU6)
  else if act_func = some "h_swish" then Except.ok (some ActModule.Hswish)
  else if act_func = none ∨ act_func = some "none" then Except.ok none
  else Except.error ("do not support: " ++ act_func.getD "")

/-- C9: build_activation returns ReLU for "relu", ReLU6 for "relu6", Hswish
for "h_swish", returns None exactly when act_func is None or the string
"none", and raises ValueError for every other value. -/
theorem build_activation_cases (inplace : Bool) (act : Option String) :
    build_activation (some "relu") inplace = Except.ok (some (ActModule.ReLU inplace)) ∧
    build_activation (some "relu6") inplace = Except.ok (some ActModule.ReLU6) ∧
    build_activation (some "h_swish") inplace = Except.ok (some ActModule.Hswish) ∧
    (build_activation act inplace = Except.ok none ↔
      act = none ∨ act = some "none") ∧
    ((∃ msg, build_activation act inplace = Except.error msg) ↔
      act ≠ none ∧ act ≠ some "none" ∧ act ≠ some "relu" ∧
        act ≠ some "relu6" ∧ act ≠ some "h_swish") := by
  refine ⟨by simp [build_activation], by simp [build_activation],
    by simp [build_activation], ?_, ?_⟩ <;>
    unfold build_activation <;> split_ifs <;> simp_all <;> tauto

/-! ## genotype2subnetlist (ofa_xception/modules.py)

The final statement of the function is
    assert([d > 1 for d in depth_list])
which asserts the truthiness of a Python list: a list is truthy exactly when
it is non-empty, independent of its elements.
-/

def skip_connect : String := "skip_connect"

/-- The list op_candidates after the destructive append of skip_connect. -/
def opCandidatesExt (op_candidates : List String) : List String :=
  op_candidates ++ [skip_connect]

/-- subnet_list = [op_candidates[i] for i in genotype] (valid indices give
the indexed element; the theorem restricts to inputs where Python would not
raise IndexError). -/
def subnet_list (op_candidates : List String) (genotype : List Nat) : List String :=
  genotype.map (fun i => (opCandidatesExt op_candidates).getD i "")

/-- One step of the loop that builds depth_list: the state is the pair
(d, depth_list); p is the pair (i, subnet) of enumerate(subnet_list);
n is len(subnet_list). -/
def depthStep (n : Nat) (st : Nat × List Nat) (p : Nat × String) : Nat × List Nat :=
  if p.2 = skip_connect then
    if st.1 > 1 then (0, st.2 ++ [st.1]) else st
  else if st.1 = 4 then (1, st.2 ++ [st.1])
  else if p.1 = n - 1 then (st.1, st.2 ++ [st.1 + 1])
  else (st.1 + 1, st.2)

/-- depth_list as computed by genotype2subnetlist's loop over
enumerate(subnet_list), starting from d = 0 and depth_list = []. -/
def depth_list (op_candidates : List String) (genotype : List Nat) : List Nat :=
  ((subnet_list op_candidates genotype).enum.foldl
    (depthStep (subnet_list op_candidates genotype).length) (0, [])).2

/-- The Python expression [d > 1 for d in depth_list]. -/
def depthFlags (op_candidates : List String) (genotype : List Nat) : List Bool :=
  (depth_list op_candidates genotype).map (fun d => decide (d > 1))

/-- Truthiness of the asserted list: a Python list is truthy iff non-empty. -/
def depthAssertPasses (op_candidates : List String) (genotype : List Nat) : Bool :=
  ! (depthFlags op_candidates genotype).isEmpty

/-- C10: the assertion at the end of genotype2subnetlist tests the truthiness
of the list [d > 1 for d in depth_list], so (for every input on which the
function runs without an IndexError) it succeeds exactly when the computed
depth_list is non-empty, regardless of the individual depth values. -/
theorem genotype2subnetlist_assert_iff (op_candidates : List String)
    (genotype : List Nat)
    (h : ∀ i ∈ genotype, i < (opCandidatesExt op_candidates).length) :
    depthAssertPasses op_candidates genotype = true ↔
      depth_list op_candidates genotype ≠ [] := by
  unfold depthAssertPasses depthFlags
  cases depth_list op_candidates genotype <;> simp

/-- Witness for C10 at a concrete input: op_candidates = ["XP1 3x3 1"],
genotype = [0, 0]; both loop iterations take non-skip branches and the
resulting depth_list is [2]. -/
theorem genotype2subnetlist_assert_iff_witness :
    (∀ i ∈ [0, 0], i < (opCandidatesExt ["XP1 3x3 1"]).length) ∧
    (depthAssertPasses ["XP1 3x3 1"] [0, 0] = true ↔
      depth_list ["XP1 3x3 1"] [0, 0] ≠ []) :=
  ⟨by decide, genotype2subnetlist_assert_iff ["XP1 3x3 1"] [0, 0] (by decide)⟩

/-! ## Generic list helpers used by several embeddings -/

/-- Mapping a constant over a list gives a replicate of its length. -/
theorem map_const_eq_replicate {α β : Type} (l : List α) (c : β) :
    l.map (fun _ => c) = List.replicate l.length c := by
  induction l with
  | nil => rfl
  | cons a t ih => simp [List.replicate_succ, ih]

/-- Flattening a replicate of a replicate multiplies the counts. -/
theorem flatten_replicate_replicate {α : Type} (a b : Nat) (x : α) :
    (List.replicate a (List.replicate b x)).flatten = List.replicate (a * b) x := by
  induction a with
  | zero => simp
  | succ n ih =>
    simp only [List.replicate_succ, List.flatten_cons, ih, Nat.succ_mul,
      Nat.add_comm, List.replicate_add]

/-- Flattening a replicate of a flattened replicate multiplies the counts. -/
theorem flatten_replicate_flatten {α : Type} (a b : Nat) (l : List α) :
    (List.replicate a (List.replicate b l).flatten).flatten =
      (List.replicate (a * b) l).flatten := by
  induction a with
  | zero => simp
  | succ n ih =>
    simp only [List.replicate_succ, List.flatten_cons, ih, Nat.succ_mul,
      Nat.add_comm, List.replicate_add, List.flatten_append]

/-- A loop of the form r = a; for x in l: r += f x computes a + sum of f. -/
theorem foldl_add_eq_sum {α : Type} (f : α → Rat) (l : List α) (a : Rat) :
    l.foldl (fun r x => r + f x) a = a + (l.map f).sum := by
  induction l generalizing a with
  | nil => simp
  | cons x t ih => simp [ih, add_assoc]

/-- Dividing every summand by a constant divides the sum. -/
theorem sum_map_div {α : Type} (f : α → Rat) (l : List α) (c : Rat) :
    (l.map (fun x => f x / c)).sum = (l.map f).sum / c := by
  induction l with
  | nil => simp
  | cons x t ih => simp [ih, add_div]

/-! ## The searcher training loop (runner/searcher/search.py, Searcher.run)

The loop structure of Searcher.run and Searcher._start_warmup as an event
trace.  A trainStep event is one call to train_on_batch with the given
optimizer key; an archStep event is one call to valid_on_batch.  The same
structure embeds runner/search.py Searcher.run, whose step methods are
named update_model_step and update_arch_step.
-/

inductive SEvent where
  | trainStep (key : String)
  | archStep
deriving DecidableEq

/-- One warmup epoch: for i in range(one_epoch): train_on_batch(key="warmup"). -/
def warmupEpochTrace (one_epoch : Nat) : List SEvent :=
  ((List.range one_epoch).map (fun _ => [SEvent.trainStep "warmup"])).flatten

/-- The whole warmup phase: for cur_epoch in range(args.warmup): one epoch. -/
def warmupTrace (warmup one_epoch : Nat) : List SEvent :=
  ((List.range warmup).map (fun _ => warmupEpochTrace one_epoch)).flatten

/-- One search epoch: for i in range(one_epoch): train_on_batch();
valid_on_batch(). -/
def searchEpochTrace (one_epoch : Nat) : List SEvent :=
  ((List.range one_epoch).map
    (fun _ => [SEvent.trainStep "train", SEvent.archStep])).flatten

/-- Searcher.run: the warmup phase, then args.epoch search epochs. -/
def runTrace (warmup epoch one_epoch : Nat) : List SEvent :=
  warmupTrace warmup one_epoch ++
    ((List.range epoch).map (fun _ => searchEpochTrace one_epoch)).flatten

theorem warmupEpochTrace_eq (one_epoch : Nat) :
    warmupEpochTrace one_epoch =
      List.replicate one_epoch (SEvent.trainStep "warmup") := by
  unfold warmupEpochTrace
  rw [map_const_eq_replicate, List.length_range,
    show [SEvent.trainStep "warmup"] = List.replicate 1 (SEvent.trainStep "warmup") from rfl,
    flatten_replicate_replicate, Nat.mul_one]

theorem warmupTrace_eq (warmup one_epoch : Nat) :
    warmupTrace warmup one_epoch =
      List.replicate (warmup * one_epoch) (SEvent.trainStep "warmup") := by
  unfold warmupTrace
  simp only [warmupEpochTrace_eq]
  rw [map_const_eq_replicate, List.length_range, flatten_replicate_replicate]

theorem searchEpochTrace_eq (one_epoch : Nat) :
    searchEpochTrace one_epoch =
      (List.replicate one_epoch
        [SEvent.trainStep "train", SEvent.archStep]).flatten := by
  unfold searchEpochTrace
  rw [map_const_eq_replicate, List.length_range]

/-- C2: a run is the whole warmup phase followed by args.epoch epochs of
one_epoch iterations, each iteration exactly one model-weight update
immediately followed by exactly one architecture update; in particular every
architecture update comes after the warmup phase has completed. -/
theorem searcher_run_alternation (warmup epoch one_epoch : Nat) :
    runTrace warmup epoch one_epoch =
      List.replicate (warmup * one_epoch) (SEvent.trainStep "warmup") ++
        (List.replicate (epoch * one_epoch)
          [SEvent.trainStep "train", SEvent.archStep]).flatten := by
  unfold runTrace
  rw [warmupTrace_eq]
  simp only [searchEpochTrace_eq]
  rw [map_const_eq_replicate, List.length_range, flatten_replicate_flatten]

/-! ## Frame property of the warmup phase (C3)

State semantics for the events: train_on_batch sets the optimizer's
parameters to model.get_net_parameters(grad_only=True) and the final
optimizer[key].update() mutates exactly those, so a trainStep transforms
only the network-weight component of the state; valid_on_batch sets the
"valid" optimizer's parameters to model.get_arch_parameters(grad_only=True),
so an archStep transforms only the architecture-parameter component.  The
concrete numeric updates are abstract inputs.
-/

structure NasState where
  netParams : Rat
  archParams : Rat
deriving DecidableEq

def stepSem (netUpd : String → NasState → Rat) (archUpd : NasState → Rat)
    (s : NasState) : SEvent → NasState
  | SEvent.trainStep key => { netParams := netUpd key s, archParams := s.archParams }
  | SEvent.archStep => { netParams := s.netParams, archParams := archUpd s }

def runEvents (netUpd : String → NasState → Rat) (archUpd : NasState → Rat)
    (s : NasState) (tr : List SEvent) : NasState :=
  tr.foldl (stepSem netUpd archUpd) s

theorem runEvents_replicate_trainStep_archParams
    (netUpd : String → NasState → Rat) (archUpd : NasState → Rat)
    (key : String) (m : Nat) (s : NasState) :
    (runEvents netUpd archUpd s
      (List.replicate m (SEvent.trainStep key))).archParams = s.archParams := by
  induction m generalizing s with
  | zero => rfl
  | succ n ih =>
    rw [List.replicate_succ]
    exact ih _

/-- C3: every event of the warmup phase is a model-weight training step with
the "warmup" optimizer key (no architecture update step occurs), and running
the warmup phase from any state leaves the architecture parameters exactly
as they were, whatever the weight updates do. -/
theorem warmup_only_updates_weights (warmup one_epoch : Nat) :
    (∀ ev ∈ warmupTrace warmup one_epoch, ev = SEvent.trainStep "warmup") ∧
    (∀ (netUpd : String → NasState → Rat) (archUpd : NasState → Rat)
      (s : NasState),
      (runEvents netUpd archUpd s
        (warmupTrace warmup one_epoch)).archParams = s.archParams) := by
  constructor
  · intro ev hev
    rw [warmupTrace_eq] at hev
    exact List.eq_of_mem_replicate hev
  · intro netUpd archUpd s
    rw [warmupTrace_eq]
    exact runEvents_replicate_trainStep_archParams netUpd archUpd _ _ s

/-! ## train_on_batch (runner/searcher/pnas.py), single-process path

Source (comm.n_procs = 1, so the all-reduce branches are skipped):
    self.update_graph(key)
    params = self.model.get_net_parameters(grad_only=True)
    self.optimizer[key].set_parameters(params)
    self.optimizer[key].zero_grad()
    for _ in range(self.accum_train):
        self._load_data(p, self.dataloader["train"].next())
        p["loss"].forward(clear_no_need_grad=True)
        p["err"].forward(clear_buffer=True)
        p["loss"].backward(clear_buffer=True)
        ...
    self.optimizer[key].update()
The graph built for the "train" key has
    p["loss"] = criteria(output, target) / self.accum_train
(Searcher._sample_train_net in runner/search.py, the in-repo twin of
Runner.update_graph), so calling backward on it accumulates 1/accum_train of
the raw criteria gradient into each parameter's gradient buffer.  rawGrad i
stands for the raw criteria gradient on micro-batch i of one parameter; the
event semantics below tracks that parameter's buffer.  runner/search.py
ProxylessNasSearcher.update_model_step runs the same loop.
-/

inductive TOp where
  | zeroGrad
  | loadTrain (i : Nat)
  | forwardLoss (i : Nat)
  | forwardErr (i : Nat)
  | backwardLoss (i : Nat)
  | optUpdate
deriving DecidableEq

def train_on_batch_trace (accum : Nat) : List TOp :=
  [TOp.zeroGrad] ++
    ((List.range accum).map (fun i =>
      [TOp.loadTrain i, TOp.forwardLoss i, TOp.forwardErr i,
        TOp.backwardLoss i])).flatten ++
    [TOp.optUpdate]

def isBackwardT : TOp → Bool
  | TOp.backwardLoss _ => true
  | _ => false

/-- Effect of one operation on one parameter's gradient buffer: zero_grad
clears it, backward on the loss (already divided by accum) adds
rawGrad i / accum, nothing else touches it. -/
def netGradStep (accum : Nat) (rawGrad : Nat → Rat) (g : Rat) : TOp → Rat
  | TOp.zeroGrad => 0
  | TOp.backwardLoss i => g + rawGrad i / accum
  | _ => g

def netGradAfter (accum : Nat) (rawGrad : Nat → Rat) (g0 : Rat)
    (tr : List TOp) : Rat :=
  tr.foldl (netGradStep accum rawGrad) g0

theorem netGradAfter_blocks (accum : Nat) (rawGrad : Nat → Rat) (n : Nat)
    (g : Rat) :
    netGradAfter accum rawGrad g
      (((List.range n).map (fun i =>
        [TOp.loadTrain i, TOp.forwardLoss i, TOp.forwardErr i,
          TOp.backwardLoss i])).flatten) =
      g + ((List.range n).map (fun i => rawGrad i / accum)).sum := by
  induction n generalizing g with
  | zero => simp [netGradAfter]
  | succ m ih =>
    rw [List.range_succ]
    simp only [List.map_append, List.flatten_append, netGradAfter,
      List.foldl_append] at ih ⊢
    rw [ih]
    simp [netGradStep, List.sum_append, add_assoc]

/-- C4: one call to train_on_batch zeroes the gradient buffers exactly once
(as the very first operation), runs exactly accum_train = bs_train //
mbs_train backward passes, each adding the gradient of a loss pre-divided by
accum_train into the same buffer, applies exactly one optimizer update (as
the very last operation), and the buffer at update time holds the sum of the
per-micro-batch raw gradients divided by accum_train. -/
theorem train_on_batch_accumulates (bs_train mbs_train : Nat)
    (rawGrad : Nat → Rat) (g0 : Rat) :
    ((train_on_batch_trace (bs_train / mbs_train)).countP
        (fun op => op == TOp.zeroGrad) = 1) ∧
    ((train_on_batch_trace (bs_train / mbs_train)).countP
        (fun op => op == TOp.optUpdate) = 1) ∧
    ((train_on_batch_trace (bs_train / mbs_train)).countP isBackwardT =
      bs_train / mbs_train) ∧
    (train_on_batch_trace (bs_train / mbs_train)).head? = some TOp.zeroGrad ∧
    (train_on_batch_trace (bs_train / mbs_train)).getLast? =
      some TOp.optUpdate ∧
    netGradAfter (bs_train / mbs_train) rawGrad g0
        (train_on_batch_trace (bs_train / mbs_train)) =
      ((List.range (bs_train / mbs_train)).map rawGrad).sum /
        (bs_train / mbs_train : Nat) := by
  set accum := bs_train / mbs_train with haccum
  refine ⟨?_, ?_, ?_, ?_, ?_, ?_⟩
  · unfold train_on_batch_trace
    simp only [List.countP_append, List.countP_flatten, List.map_map]
    rw [show ((List.countP (fun op => op == TOp.zeroGrad)) ∘ fun i =>
      [TOp.loadTrain i, TOp.forwardLoss i, TOp.forwardErr i,
        TOp.backwardLoss i]) = fun _ => 0 from funext (fun i => by
          simp [List.countP_cons]), map_const_eq_replicate]
    simp [List.countP_cons, List.sum_replicate]
  · unfold train_on_batch_trace
    simp only [List.countP_append, List.countP_flatten, List.map_map]
    rw [show ((List.countP (fun op => op == TOp.optUpdate)) ∘ fun i =>
      [TOp.loadTrain i, TOp.forwardLoss i, TOp.forwardErr i,
        TOp.backwardLoss i]) = fun _ => 0 from funext (fun i => by
          simp [List.countP_cons]), map_const_eq_replicate]
    simp [List.countP_cons, List.sum_replicate]
  · unfold train_on_batch_trace
    simp only [List.countP_append, List.countP_flatten, List.map_map]
    rw [show ((List.countP isBackwardT) ∘ fun i =>
      [TOp.loadTrain i, TOp.forwardLoss i, TOp.forwardErr i,
        TOp.backwardLoss i]) = fun _ => 1 from funext (fun i => by
          simp [List.countP_cons, isBackwardT]), map_const_eq_replicate]
    simp [List.countP_cons, isBackwardT, List.sum_replicate]
  · rfl
  · unfold train_on_batch_trace
    rw [List.getLast?_append]
    rfl
  · unfold train_on_batch_trace netGradAfter
    rw [List.foldl_append, List.foldl_append]
    rw [show List.foldl (netGradStep accum rawGrad) g0 [TOp.zeroGrad] =
      (0 : Rat) from rfl]
    have h2 := netGradAfter_blocks accum rawGrad accum (0 : Rat)
    unfold netGradAfter at h2
    rw [h2, zero_add, sum_map_div]
    rfl

/-! ## DartsSeacher.update_arch_step (runner/search.py)

Source:
    def update_arch_step(self):
        bz, p = self.args.mbs_valid, self.placeholder["valid"]
        self._sample_search_net()
        self.optimizer["valid"].zero_grad()
        for i in range(self.accum_valid):
            p["input"].d, p["target"].d = self.dataloader["valid"].next()
            p["loss"].forward(clear_buffer=True)
            p["err"].forward(clear_buffer=True)
            ...
        self.optimizer["valid"].update()
The operation language below includes backwardLossValid so that the absence
of any backward pass in this method is a statement, not an artifact.
-/

inductive DOp where
  | sampleSearchNet
  | zeroGradArch
  | loadValid (i : Nat)
  | forwardLossValid (i : Nat)
  | forwardErrValid (i : Nat)
  | backwardLossValid (i : Nat)
  | optUpdateValid
deriving DecidableEq

def darts_update_arch_step_trace (accum_valid : Nat) : List DOp :=
  [DOp.sampleSearchNet, DOp.zeroGradArch] ++
    ((List.range accum_valid).map (fun i =>
      [DOp.loadValid i, DOp.forwardLossValid i,
        DOp.forwardErrValid i])).flatten ++
    [DOp.optUpdateValid]

def isBackwardD : DOp → Bool
  | DOp.backwardLossValid _ => true
  | _ => false

/-- Effect of one operation on one architecture parameter's gradient buffer:
zero_grad clears it, backward on the validation loss would add that loss's
gradient, forward passes and loads leave it alone. -/
def archGradStep (lossGrad : Nat → Rat) (g : Rat) : DOp → Rat
  | DOp.zeroGradArch => 0
  | DOp.backwardLossValid i => g + lossGrad i
  | _ => g

/-- C5 evidence: DartsSeacher.update_arch_step performs no backward pass at
all — its trace contains zero backwardLossValid operations — and therefore
the architecture-parameter gradient buffer still holds exactly 0 when
optimizer["valid"].update() runs, whatever the validation losses and their
gradients are.  The claimed gradient-descent step on the validation loss
never happens. -/
theorem darts_update_arch_step_no_backward (accum_valid : Nat)
    (lossGrad : Nat → Rat) (g0 : Rat) :
    ((darts_update_arch_step_trace accum_valid).countP isBackwardD = 0) ∧
    ((darts_update_arch_step_trace accum_valid).foldl
        (archGradStep lossGrad) g0 = 0) := by
  constructor
  · unfold darts_update_arch_step_trace
    simp only [List.countP_append, List.countP_flatten, List.map_map]
    rw [show ((List.countP isBackwardD) ∘ fun i =>
      [DOp.loadValid i, DOp.forwardLossValid i, DOp.forwardErrValid i]) =
        fun _ => 0 from funext (fun i => by
          simp [List.countP_cons, isBackwardD]), map_const_eq_replicate]
    simp [List.countP_cons, isBackwardD, List.sum_replicate]
  · unfold darts_update_arch_step_trace
    rw [List.foldl_append, List.foldl_append]
    have hblocks : ∀ (n : Nat) (g : Rat),
        (((List.range n).map (fun i =>
          [DOp.loadValid i, DOp.forwardLossValid i,
            DOp.forwardErrValid i])).flatten).foldl
          (archGradStep lossGrad) g = g := by
      intro n
      induction n with
      | zero => intro g; rfl
      | succ m ih =>
        intro g
        rw [List.range_succ]
        simp only [List.map_append, List.flatten_append, List.foldl_append]
        rw [ih]
        rfl
    rw [show List.foldl (archGradStep lossGrad) g0
      [DOp.sampleSearchNet, DOp.zeroGradArch] = 0 from rfl, hblocks]
    rfl

/-! ## ProxylessNAS architecture update

Both implementations run, per call:
    beta, n_iter = 0.9, 5
    data = [dataloader["valid"].next() for i in range(accum_valid)]
    for _ in range(n_iter):
        reward = 0
        <sample a fresh sub-network>
        for each cached micro-batch: reward += (1 - err) / accum_valid
        for each regularizer entry: reward *= <constraint factor>
        rewards.append(reward); grads.append(<alpha gradient copies>)
    for each arch parameter j:
        grad.zero()
        for i, r in enumerate(rewards): g += (r - baseline) * grads[i][j] / n_iter
    optimizer["valid"].update()
    baseline = beta * sum(rewards) / n_iter + (1 - beta) * baseline
The two versions differ in one spot: runner/searcher/pnas.py uses the
constraint factor (min(1.0, bound/value)) ** weight, while runner/search.py
uses (bound/value) ** weight.  The single-process path is embedded (with
comm.n_procs = 1 the all-reduce branches of pnas.py are skipped).
-/

def n_iter : Nat := 5

def beta : Rat := 9 / 10

/-- One regularizer entry as seen by one n_iter iteration: its configured
bound and weight and the value v["reg"].get_estimation(model) returned for
the currently sampled sub-network. -/
structure RegEntry where
  bound : Rat
  weight : Int
  value : Rat
deriving DecidableEq

/-- Constraint factor of runner/searcher/pnas.py valid_on_batch:
reward *= (min(1.0, v["bound"] / value)) ** v["weight"]. -/
def constraint_factor_pnas (e : RegEntry) : Rat :=
  (min 1 (e.bound / e.value)) ^ e.weight

/-- Constraint factor of runner/search.py update_arch_step:
reward *= (v["bound"] / value) ** v["weight"]. -/
def constraint_factor_search (e : RegEntry) : Rat :=
  (e.bound / e.value) ^ e.weight

/-- The loop reward = 0; for each micro-batch: reward += (1 - err)/accum. -/
def raw_reward (accum : Nat) (err : Nat → Rat) : Rat :=
  (List.range accum).foldl (fun r i => r + (1 - err i) / accum) 0

/-- The loop for k, v in regularizer.items(): reward *= factor(v). -/
def apply_constraints (factor : RegEntry → Rat) (regs : List RegEntry)
    (r : Rat) : Rat :=
  regs.foldl (fun acc e => acc * factor e) r

/-- Inputs of one architecture-update call that the external engine
determines: the number of cached validation micro-batches, the error of
iteration t's sampled sub-network on cached micro-batch i, iteration t's
regularizer entries (fixed bounds and weights, per-sample estimations), the
recorded gradient copy grads[t][j] for arch parameter j, and the baseline
self._reward held before the call. -/
structure ArchUpdateInput where
  accum_valid : Nat
  err : Nat → Nat → Rat
  regs : Nat → List RegEntry
  grads : Nat → Nat → Rat
  baseline : Rat

def pnas_reward (inp : ArchUpdateInput) (t : Nat) : Rat :=
  apply_constraints constraint_factor_pnas (inp.regs t)
    (raw_reward inp.accum_valid (inp.err t))

def search_reward (inp : ArchUpdateInput) (t : Nat) : Rat :=
  apply_constraints constraint_factor_search (inp.regs t)
    (raw_reward inp.accum_valid (inp.err t))

def pnas_rewards (inp : ArchUpdateInput) : List Rat :=
  (List.range n_iter).map (pnas_reward inp)

def search_rewards (inp : ArchUpdateInput) : List Rat :=
  (List.range n_iter).map (search_reward inp)

/-- The loop for i, r in enumerate(rewards): g += (r - baseline) *
grads[i] / n_iter, with the enumerate counter threaded explicitly. -/
def reinforce_fold (baseline : Rat) (gradsAt : Nat → Rat) :
    Rat → Nat → List Rat → Rat
  | g, _, [] => g
  | g, i, r :: rest =>
    reinforce_fold baseline gradsAt
      (g + (r - baseline) * gradsAt i / (n_iter : Rat)) (i + 1) rest

/-- Gradient of arch parameter j after m.grad.zero() and the enumerate loop
of pnas.py valid_on_batch. -/
def pnas_arch_grad (inp : ArchUpdateInput) (j : Nat) : Rat :=
  reinforce_fold inp.baseline (fun t => inp.grads t j) 0 0 (pnas_rewards inp)

/-- Gradient of arch parameter j after the identical enumerate loop of
runner/search.py update_arch_step. -/
def search_arch_grad (inp : ArchUpdateInput) (j : Nat) : Rat :=
  reinforce_fold inp.baseline (fun t => inp.grads t j) 0 0 (search_rewards inp)

/-- The update self._reward = beta * sum(rewards) / n_iter +
(1 - beta) * self._reward. -/
def updated_baseline (rewards : List Rat) (baseline : Rat) : Rat :=
  beta * rewards.sum / (n_iter : Rat) + (1 - beta) * baseline

def pnas_new_baseline (inp : ArchUpdateInput) : Rat :=
  updated_baseline (pnas_rewards inp) inp.baseline

def search_new_baseline (inp : ArchUpdateInput) : Rat :=
  updated_baseline (search_rewards inp) inp.baseline

/-- C1: after pnas.py valid_on_batch, arch parameter j's gradient equals
(1/5) * sum over the 5 samples of (r_t - b) * g_t, where r_t is sample t's
reward, g_t the recorded gradient copy and b the baseline held before the
call; the baseline is then updated to 0.9 * mean(rewards) + 0.1 * b.  The
optimizer update that follows reads the gradient buffers and does not write
them. -/
theorem pnas_arch_update_formula (inp : ArchUpdateInput) (j : Nat) :
    pnas_arch_grad inp j =
      (1 / 5) * (((List.range 5).map
        (fun t => (pnas_reward inp t - inp.baseline) * inp.grads t j)).sum) ∧
    pnas_new_baseline inp =
      (9 / 10) * (((List.range 5).map (pnas_reward inp)).sum / 5) +
        (1 / 10) * inp.baseline := by
  constructor
  · show reinforce_fold _ _ 0 0 (pnas_rewards inp) = _
    rw [show pnas_rewards inp = [pnas_reward inp 0, pnas_reward inp 1,
      pnas_reward inp 2, pnas_reward inp 3, pnas_reward inp 4] by
        simp [pnas_rewards, n_iter, List.range_succ]]
    rw [show (List.range 5) = [0, 1, 2, 3, 4] by
      simp [List.range_succ]]
    simp only [reinforce_fold, n_iter, List.map_cons, List.map_nil,
      List.sum_cons, List.sum_nil]
    push_cast
    ring
  · unfold pnas_new_baseline updated_baseline pnas_rewards
    simp only [n_iter, beta]
    push_cast
    ring

/-! ## C6: the two ProxylessNAS implementations against each other -/

/-- A concrete input on which the two reward computations disagree: one
regularizer entry with bound 2, weight 1 and estimated value 1, zero error
on the single micro-batch. -/
def cexInput : ArchUpdateInput where
  accum_valid := 1
  err := fun _ _ => 0
  regs := fun _ => [{ bound := 2, weight := 1, value := 1 }]
  grads := fun _ _ => 1
  baseline := 0

/-- C6 counterexample: at cexInput, runner/search.py computes reward
(2/1)^1 * 1 = 2 for sample 0 while pnas.py computes (min(1, 2/1))^1 * 1 = 1,
so the two implementations do not produce equal rewards; the updated
baselines differ as well. -/
theorem pnas_search_rewards_differ :
    search_reward cexInput 0 ≠ pnas_reward cexInput 0 ∧
    search_new_baseline cexInput ≠ pnas_new_baseline cexInput := by
  have hraw : raw_reward cexInput.accum_valid (cexInput.err 0) = 1 := by
    norm_num [raw_reward, cexInput, List.range_succ]
  have hs : search_reward cexInput 0 = 2 := by
    unfold search_reward apply_constraints constraint_factor_search
    rw [hraw]
    norm_num [cexInput]
  have hp : pnas_reward cexInput 0 = 1 := by
    unfold pnas_reward apply_constraints constraint_factor_pnas
    rw [hraw]
    norm_num [cexInput]
  constructor
  · rw [hs, hp]; norm_num
  · have hrawt : ∀ t, raw_reward cexInput.accum_valid (cexInput.err t) = 1 := by
      intro t; norm_num [raw_reward, cexInput, List.range_succ]
    have hst : ∀ t, search_reward cexInput t = 2 := by
      intro t
      unfold search_reward apply_constraints constraint_factor_search
      rw [hrawt]
      norm_num [cexInput]
    have hpt : ∀ t, pnas_reward cexInput t = 1 := by
      intro t
      unfold pnas_reward apply_constraints constraint_factor_pnas
      rw [hrawt]
      norm_num [cexInput]
    unfold search_new_baseline pnas_new_baseline updated_baseline
    unfold search_rewards pnas_rewards
    rw [show List.range n_iter = [0, 1, 2, 3, 4] by
      simp [n_iter, List.range_succ]]
    simp only [List.map_cons, List.map_nil, List.sum_cons, List.sum_nil,
      hst, hpt]
    norm_num [beta, n_iter]

theorem apply_constraints_congr (f g : RegEntry → Rat) (regs : List RegEntry)
    (h : ∀ e ∈ regs, f e = g e) (r : Rat) :
    apply_constraints f regs r = apply_constraints g regs r := by
  induction regs generalizing r with
  | nil => rfl
  | cons e t ih =>
    unfold apply_constraints at ih ⊢
    simp only [List.foldl_cons]
    rw [h e (List.mem_cons_self e t), ih (fun x hx => h x (List.mem_cons_of_mem e hx))]

/-- C6 amended: whenever every regularizer entry of every sample has
bound / value ≤ 1 (so the clamp min(1.0, bound/value) of pnas.py has no
effect), the two single-process implementations produce equal per-sample
rewards, equal architecture-parameter gradients and equal updated
baselines.  Without that proviso the rewards can differ, as
pnas_search_rewards_differ shows. -/
theorem pnas_search_equiv_of_ratio_le_one (inp : ArchUpdateInput)
    (h : ∀ t < n_iter, ∀ e ∈ inp.regs t, e.bound / e.value ≤ 1) :
    (∀ t < n_iter, search_reward inp t = pnas_reward inp t) ∧
    (∀ j, search_arch_grad inp j = pnas_arch_grad inp j) ∧
    search_new_baseline inp = pnas_new_baseline inp := by
  have hfac : ∀ t < n_iter, ∀ e ∈ inp.regs t,
      constraint_factor_search e = constraint_factor_pnas e := by
    intro t ht e he
    unfold constraint_factor_search constraint_factor_pnas
    rw [min_eq_right (h t ht e he)]
  have hrew : ∀ t < n_iter, search_reward inp t = pnas_reward inp t := by
    intro t ht
    unfold search_reward pnas_reward
    exact apply_constraints_congr _ _ _ (hfac t ht) _
  have hlists : search_rewards inp = pnas_rewards inp := by
    unfold search_rewards pnas_rewards
    exact List.map_congr_left (fun t ht => hrew t (List.mem_range.mp ht))
  refine ⟨hrew, ?_, ?_⟩
  · intro j
    unfold search_arch_grad pnas_arch_grad
    rw [hlists]
  · unfold search_new_baseline pnas_new_baseline
    rw [hlists]

/-- Witness for C6 amended at a concrete input: a single regularizer entry
with bound 1, weight 1 and value 2, so bound / value = 1/2 ≤ 1. -/
def equivInput : ArchUpdateInput where
  accum_valid := 1
  err := fun _ _ => 0
  regs := fun _ => [{ bound := 1, weight := 1, value := 2 }]
  grads := fun _ _ => 1
  baseline := 0

theorem pnas_search_equiv_of_ratio_le_one_witness :
    (∀ t < n_iter, ∀ e ∈ equivInput.regs t, e.bound / e.value ≤ 1) ∧
    ((∀ t < n_iter, search_reward equivInput t = pnas_reward equivInput t) ∧
      (∀ j, search_arch_grad equivInput j = pnas_arch_grad equivInput j) ∧
      search_new_baseline equivInput = pnas_new_baseline equivInput) :=
  ⟨fun t ht e he => by
      rw [show e = { bound := 1, weight := 1, value := 2 } from
        List.mem_singleton.mp he]
      norm_num,
    pnas_search_equiv_of_ratio_le_one equivInput
      (fun t ht e he => by
        rw [show e = { bound := 1, weight := 1, value := 2 } from
          List.mem_singleton.mp he]
        norm_num)⟩

/-! ## C7: sampling and data caching in the architecture-update step

Event trace of pnas.py valid_on_batch (equally runner/search.py
update_arch_step): first the list comprehension
    valid_data = [self.dataloader["valid"].next() for i in range(accum_valid)]
then 5 iterations, each beginning with a fresh sample — update_graph /
_sample_search_net calls sample_network, which runs
m.update_active_index() on every architecture module (runner/search.py
ProxylessNasSearcher.sample_network) — followed by one evaluation on each
cached micro-batch.
-/

inductive VOp where
  | fetchValid (i : Nat)
  | updateActiveIndex (m : Nat)
  | loadValid (t i : Nat)
  | forwardLossValid (t i : Nat)
  | forwardErrValid (t i : Nat)
deriving DecidableEq

/-- sample_network: for m in self.arch_modules: m.update_active_index(). -/
def sample_network_trace (nModules : Nat) : List VOp :=
  (List.range nModules).map VOp.updateActiveIndex

/-- One of the 5 n_iter iterations: a fresh sample, then the loop over the
cached micro-batches. -/
def pnas_iteration_trace (accum nModules t : Nat) : List VOp :=
  sample_network_trace nModules ++
    ((List.range accum).map (fun i =>
      [VOp.loadValid t i, VOp.forwardLossValid t i,
        VOp.forwardErrValid t i])).flatten

/-- valid_on_batch: fetch the accum_valid micro-batches once, then the 5
evaluation iterations. -/
def valid_on_batch_trace (accum nModules : Nat) : List VOp :=
  (List.range accum).map VOp.fetchValid ++
    ((List.range n_iter).map (pnas_iteration_trace accum nModules)).flatten

def isFetch : VOp → Bool
  | VOp.fetchValid _ => true
  | _ => false

def isUpdateIdx : VOp → Bool
  | VOp.updateActiveIndex _ => true
  | _ => false

theorem sum_map_const_nat {α : Type} (l : List α) (f : α → Nat) (c : Nat)
    (h : ∀ a ∈ l, f a = c) : (l.map f).sum = l.length * c := by
  rw [List.map_congr_left h, map_const_eq_replicate, List.sum_replicate,
    smul_eq_mul]

theorem countP_pnas_iteration_fetch (accum nModules t : Nat) :
    (pnas_iteration_trace accum nModules t).countP isFetch = 0 := by
  unfold pnas_iteration_trace sample_network_trace
  rw [List.countP_append, List.countP_flatten, List.map_map, List.countP_map,
    List.countP_eq_zero.mpr (fun a _ => by simp [isFetch]),
    sum_map_const_nat _ _ 0 (fun i _ => by
      simp [Function.comp, isFetch])]
  simp

theorem countP_pnas_iteration_updateIdx (accum nModules t : Nat) :
    (pnas_iteration_trace accum nModules t).countP isUpdateIdx = nModules := by
  unfold pnas_iteration_trace sample_network_trace
  rw [List.countP_append, List.countP_flatten, List.map_map, List.countP_map,
    List.countP_eq_length.mpr (fun a _ => by simp [isUpdateIdx]),
    sum_map_const_nat _ _ 0 (fun i _ => by
      simp [Function.comp, isUpdateIdx])]
  simp

/-- C7: the architecture-update step fetches exactly accum_valid validation
micro-batches, all of them before anything else happens and never again
afterwards; it re-samples every one of the nModules architecture modules
exactly 5 times, once at the head of each evaluation iteration; each of the
5 iterations evaluates the freshly sampled sub-network on every one of the
cached micro-batches; and the per-sample reward before constraints is the
mean over the cached micro-batches of (1 - error). -/
theorem pnas_arch_step_sampling_and_caching (accum nModules : Nat)
    (err : Nat → Nat → Rat) :
    ((valid_on_batch_trace accum nModules).countP isFetch = accum) ∧
    ((valid_on_batch_trace accum nModules).take accum =
      (List.range accum).map VOp.fetchValid) ∧
    (∀ op ∈ (valid_on_batch_trace accum nModules).drop accum,
      isFetch op = false) ∧
    ((valid_on_batch_trace accum nModules).countP isUpdateIdx =
      n_iter * nModules) ∧
    ((valid_on_batch_trace accum nModules).drop accum =
      ((List.range n_iter).map (fun t =>
        sample_network_trace nModules ++
          ((List.range accum).map (fun i =>
            [VOp.loadValid t i, VOp.forwardLossValid t i,
              VOp.forwardErrValid t i])).flatten)).flatten) ∧
    (∀ t, raw_reward accum (err t) =
      (((List.range accum).map (fun i => 1 - err t i)).sum) / accum) := by
  have hlen : ((List.range accum).map VOp.fetchValid).length = accum := by
    simp
  refine ⟨?_, ?_, ?_, ?_, ?_, ?_⟩
  · unfold valid_on_batch_trace
    rw [List.countP_append, List.countP_flatten, List.map_map,
      List.countP_map,
      List.countP_eq_length.mpr (fun a _ => by simp [isFetch]),
      sum_map_const_nat _ _ 0 (fun t _ => by
        simp [Function.comp, countP_pnas_iteration_fetch])]
    simp
  · unfold valid_on_batch_trace
    rw [List.take_left' hlen]
  · intro op hop
    unfold valid_on_batch_trace at hop
    rw [List.drop_left' hlen] at hop
    rcases List.mem_flatten.mp hop with ⟨l, hl, hopl⟩
    rcases List.mem_map.mp hl with ⟨t, _, rfl⟩
    unfold pnas_iteration_trace sample_network_trace at hopl
    rcases List.mem_append.mp hopl with hml | hmr
    · rcases List.mem_map.mp hml with ⟨m, _, rfl⟩
      rfl
    · rcases List.mem_flatten.mp hmr with ⟨l2, hl2, hopl2⟩
      rcases List.mem_map.mp hl2 with ⟨i, _, rfl⟩
      simp only [List.mem_cons, List.not_mem_nil, or_false] at hopl2
      rcases hopl2 with rfl | rfl | rfl <;> rfl
  · unfold valid_on_batch_trace
    rw [List.countP_append, List.countP_flatten, List.map_map,
      List.countP_map,
      List.countP_eq_zero.mpr (fun a _ => by simp [isUpdateIdx]),
      sum_map_const_nat _ _ nModules (fun t _ => by
        simp [Function.comp, countP_pnas_iteration_updateIdx])]
    simp
  · unfold valid_on_batch_trace
    rw [List.drop_left' hlen]
    rfl
  · intro t
    unfold raw_reward
    rw [foldl_add_eq_sum, zero_add, sum_map_div]

/-! ## C8: constraint factors and reward range (pnas.py valid_on_batch) -/

/-- C8 counterexample: the regularizer entry with bound -2, weight 2 and
estimated value 1 has nonnegative weight and positive estimated value, yet
its pnas.py constraint factor is (min(1, -2/1))^2 = 4 > 1: a negative bound
makes the clamped ratio negative and an even weight makes its power exceed
1, increasing the reward. -/
theorem constraint_factor_gt_one :
    (0 : Int) ≤ ({ bound := -2, weight := 2, value := 1 } : RegEntry).weight ∧
    (0 : Rat) < ({ bound := -2, weight := 2, value := 1 } : RegEntry).value ∧
    1 < constraint_factor_pnas { bound := -2, weight := 2, value := 1 } := by
  refine ⟨by norm_num, by norm_num, ?_⟩
  unfold constraint_factor_pnas
  norm_num

theorem raw_reward_mem_unit (accum : Nat) (err : Nat → Rat)
    (herr : ∀ i < accum, 0 ≤ err i ∧ err i ≤ 1) :
    0 ≤ raw_reward accum err ∧ raw_reward accum err ≤ 1 := by
  unfold raw_reward
  rw [foldl_add_eq_sum, zero_add]
  constructor
  · apply List.sum_nonneg
    intro x hx
    rcases List.mem_map.mp hx with ⟨i, hi, rfl⟩
    have := herr i (List.mem_range.mp hi)
    have haccum : (0 : Rat) ≤ (accum : Rat) := by positivity
    apply div_nonneg _ haccum
    linarith [this.2]
  · rcases Nat.eq_zero_or_pos accum with h0 | hpos
    · subst h0
      simp
    · have hle : ∀ x ∈ (List.range accum).map
          (fun i => (1 - err i) / (accum : Rat)), x ≤ 1 / (accum : Rat) := by
        intro x hx
        rcases List.mem_map.mp hx with ⟨i, hi, rfl⟩
        have h01 := herr i (List.mem_range.mp hi)
        have haccum : (0 : Rat) < (accum : Rat) := by exact_mod_cast hpos
        have h1e : 1 - err i ≤ 1 := by linarith [h01.1]
        exact (div_le_div_iff_of_pos_right haccum).mpr h1e
      calc ((List.range accum).map
            (fun i => (1 - err i) / (accum : Rat))).sum
          ≤ ((List.range accum).map
            (fun i => (1 - err i) / (accum : Rat))).length •
              (1 / (accum : Rat)) := List.sum_le_card_nsmul _ _ hle
        _ = (accum : Rat) * (1 / (accum : Rat)) := by
            simp [nsmul_eq_mul]
        _ = 1 := by
            field_simp

/-- The fold multiplying a value in [0, 1] by factors in [0, 1] stays in
[0, 1]. -/
theorem apply_constraints_mem_unit (f : RegEntry → Rat) (regs : List RegEntry)
    (hf : ∀ e ∈ regs, 0 ≤ f e ∧ f e ≤ 1) (r : Rat) (hr0 : 0 ≤ r)
    (hr1 : r ≤ 1) :
    0 ≤ apply_constraints f regs r ∧ apply_constraints f regs r ≤ 1 := by
  induction regs generalizing r with
  | nil => exact ⟨hr0, hr1⟩
  | cons e t ih =>
    unfold apply_constraints at ih ⊢
    simp only [List.foldl_cons]
    have he := hf e (List.mem_cons_self e t)
    exact ih (fun x hx => hf x (List.mem_cons_of_mem e hx)) (r * f e)
      (mul_nonneg hr0 he.1) (mul_le_one₀ hr1 he.1 he.2)

/-- C8 amended: for every regularizer entry with nonnegative weight,
nonnegative bound and positive estimated value, the pnas.py constraint
factor (min(1.0, bound/value))^weight lies in [0, 1], so applying the
constraints never increases the reward; consequently, if every micro-batch
error lies in [0, 1] and every entry satisfies those sign conditions, every
sampled reward lies in [0, 1].  (Nonnegativity of the bound cannot be
dropped: constraint_factor_gt_one exhibits a factor above 1 with weight 2,
value 1 and bound -2.) -/
theorem pnas_reward_bounds (accum : Nat) (err : Nat → Rat)
    (regs : List RegEntry)
    (herr : ∀ i < accum, 0 ≤ err i ∧ err i ≤ 1)
    (hregs : ∀ e ∈ regs, 0 ≤ e.weight ∧ 0 ≤ e.bound ∧ 0 < e.value) :
    (∀ e ∈ regs, 0 ≤ constraint_factor_pnas e ∧
      constraint_factor_pnas e ≤ 1) ∧
    0 ≤ apply_constraints constraint_factor_pnas regs (raw_reward accum err) ∧
    apply_constraints constraint_factor_pnas regs (raw_reward accum err) ≤ 1 := by
  have hfac : ∀ e ∈ regs, 0 ≤ constraint_factor_pnas e ∧
      constraint_factor_pnas e ≤ 1 := by
    intro e he
    rcases hregs e he with ⟨hw, hb, hv⟩
    unfold constraint_factor_pnas
    have hbase0 : 0 ≤ min 1 (e.bound / e.value) :=
      le_min (by norm_num) (div_nonneg hb hv.le)
    have hbase1 : min 1 (e.bound / e.value) ≤ 1 := min_le_left _ _
    obtain ⟨n, hn⟩ := Int.eq_ofNat_of_zero_le hw
    rw [hn, zpow_natCast]
    exact ⟨pow_nonneg hbase0 n, pow_le_one₀ hbase0 hbase1⟩
  have hraw := raw_reward_mem_unit accum err herr
  have happ := apply_constraints_mem_unit constraint_factor_pnas regs hfac
    (raw_reward accum err) hraw.1 hraw.2
  exact ⟨hfac, happ.1, happ.2⟩

/-- Witness for C8 amended at a concrete input: one micro-batch with error
0 and one regularizer entry with bound 1, weight 1 and value 2. -/
theorem pnas_reward_bounds_witness :
    (∀ i < 1, 0 ≤ (fun _ : Nat => (0 : Rat)) i ∧
      (fun _ : Nat => (0 : Rat)) i ≤ 1) ∧
    (∀ e ∈ [({ bound := 1, weight := 1, value := 2 } : RegEntry)],
      0 ≤ e.weight ∧ 0 ≤ e.bound ∧ 0 < e.value) ∧
    ((∀ e ∈ [({ bound := 1, weight := 1, value := 2 } : RegEntry)],
        0 ≤ constraint_factor_pnas e ∧ constraint_factor_pnas e ≤ 1) ∧
      0 ≤ apply_constraints constraint_factor_pnas
        [{ bound := 1, weight := 1, value := 2 }]
        (raw_reward 1 (fun _ => 0)) ∧
      apply_constraints constraint_factor_pnas
        [{ bound := 1, weight := 1, value := 2 }]
        (raw_reward 1 (fun _ => 0)) ≤ 1) :=
  ⟨fun i _ => ⟨le_refl 0, by norm_num⟩,
    fun e he => by
      rw [show e = { bound := 1, weight := 1, value := 2 } from
        List.mem_singleton.mp he]
      refine ⟨by norm_num, by norm_num, by norm_num⟩,
    pnas_reward_bounds 1 (fun _ => 0) [{ bound := 1, weight := 1, value := 2 }]
      (fun i _ => ⟨le_refl 0, by norm_num⟩)
      (fun e he => by
        rw [show e = { bound := 1, weight := 1, value := 2 } from
          List.mem_singleton.mp he]
        refine ⟨by norm_num, by norm_num, by norm_num⟩)⟩

end NnablaNas
